import Mathlib

/-!
Verification development for the t5qg question-generation pipeline
(`t5qg/lm_t5.py`).  The Python source is shallowly embedded: strings are
lists of characters, the HuggingFace tokenizer / seq2seq model / sentence
splitter are external collaborators modelled as function-valued fields,
exceptions become an `Except` error type, and the in-place tensor update of
the label-smoothing loss is made explicit by returning the updated labels.
-/

deriving instance DecidableEq for Except

namespace T5QG

/-- Python strings are embedded as lists of characters. -/
abbrev Str := List Char

/-- Convert a Lean string literal to the embedded string type. -/
def str (s : String) : Str := s.data

/-- Embedding of Python `str.find`: index of the first occurrence of `pat`
in `s` (`none` for Python's `-1`).  `find` of the empty pattern is `0`,
matching Python. -/
def findSub (s pat : Str) : Option Nat :=
  if pat.isPrefixOf s then some 0
  else
    match s with
    | [] => none
    | _ :: t => (findSub t pat).map (· + 1)

/-- Embedding of Python `x in s` for strings (substring test), as used by
`generate_a`'s answer filter. -/
def isSubstring (x s : Str) : Bool := (findSub s x).isSome

/-- The reserved highlight marker token `ADDITIONAL_SP_TOKENS['hl']`. -/
def hlMark : Str := str "<hl>"

/-- `'{0}{1} {2} {1}{3}'.format(...)` from `encode_plus`: the context with
the found span at position `p` wrapped as `<hl> span <hl>`. -/
def highlighted (s h : Str) (p : Nat) : Str :=
  s.take p ++ hlMark ++ [' '] ++ h ++ [' '] ++ hlMark ++ s.drop (p + h.length)

/-- The closed enumeration of task types (keys of `TASK_PREFIX`). -/
inductive TaskType where
  | ans_ext | e2e_qg | qa | qg
deriving DecidableEq, Repr

/-- The `TASK_PREFIX` dictionary: text prepended for each task type. -/
def taskTypeText : TaskType → Str
  | .ans_ext => str "extract answers"
  | .e2e_qg => str "generate questions"
  | .qa => str "question"
  | .qg => str "generate question"

/-- The external tokenizer collaborator: `encode` maps text to token ids,
`padId` is the id used by `padding='max_length'`. -/
structure Tok where
  encode : Str → List Nat
  padId : Nat

/-- An encoded example (the dict returned by `encode_plus`): `input_ids`,
`attention_mask` and the optional `labels` field. -/
structure Encoding where
  input_ids : List Nat
  attention_mask : List Nat
  labels : Option (List Nat) := none
deriving DecidableEq, Repr

/-- The exception taxonomy of the pipeline.  `valueError` and
`assertionError` stand for Python's built-in `ValueError` and
`AssertionError` (the latter also covers the `batch_size=0` rejection by
`torch.utils.data.DataLoader`, raised as a `ValueError` there). -/
inductive Err where
  | highlightNotFound (span ctx : Str)
  | exceedMaxLength (limit : Nat)
  | answerNotFound (ctx : Str)
  | valueError
  | assertionError
deriving DecidableEq, Repr

/-- `tokenizer.encode_plus(text, truncation=True, max_length=m,
padding='max_length'?)`: ids truncated to `m`, padded with `padId` when
padding is on; attention mask marks the real tokens. -/
def hfEncodePlus (tok : Tok) (maxLen : Nat) (padding : Bool) (s : Str) : Encoding :=
  let ids := (tok.encode s).take maxLen
  if padding then
    { input_ids := ids ++ List.replicate (maxLen - ids.length) tok.padId
      attention_mask := List.replicate ids.length 1 ++ List.replicate (maxLen - ids.length) 0 }
  else
    { input_ids := ids, attention_mask := List.replicate ids.length 1 }

/-- `tokenizer.encode(text, truncation=True, max_length=m,
padding='max_length'?)` as used for the `labels` field. -/
def hfEncodeIds (tok : Tok) (maxLen : Nat) (padding : Bool) (s : Str) : List Nat :=
  let ids := (tok.encode s).take maxLen
  if padding then ids ++ List.replicate (maxLen - ids.length) tok.padId else ids

/-- The `EncodePlus` wrapper object of `lm_t5.py` (its constructor
arguments; `param_in`/`param_out` are derived from these).  The field
`no_pfx` of the model class is spelled without the source's suffix. -/
structure EncodePlus where
  tokenizer : Tok
  max_length : Nat := 512
  max_length_output : Nat := 34
  drop_overflow_text : Bool := false
  skip_overflow_error : Bool := false
  skip_highlight_error : Bool := false
  task_type : Option TaskType := none
  padding : Bool := true

/-- Task prefixing step of `encode_plus`:
`'{}: {}'.format(TASK_PREFIX[self.task_prefix], input_sequence)`. -/
def EncodePlus.applyTask (c : EncodePlus) (s : Str) : Str :=
  match c.task_type with
  | none => s
  | some t => taskTypeText t ++ (':' :: ' ' :: []) ++ s

/-- The input-construction phase of `encode_plus`: optional highlighting
(first occurrence, else `HighlightNotFound` or `None`) followed by task
prefixing.  `ok none` models the Python `return None`. -/
def EncodePlus.buildInput (c : EncodePlus) (input_sequence : Str)
    (input_highlight : Option Str) : Except Err (Option Str) :=
  match input_highlight with
  | none => .ok (some (c.applyTask input_sequence))
  | some h =>
    match findSub input_sequence h with
    | none =>
      if c.skip_highlight_error then .ok none
      else .error (.highlightNotFound h input_sequence)
    | some p => .ok (some (c.applyTask (highlighted input_sequence h p)))

/-- Final step of `encode_plus`: numeric encoding of the built input, with
the target attached as `labels` when given. -/
def EncodePlus.finish (c : EncodePlus) (s : Str) (outp : Option Str) :
    Except Err (Option Encoding) :=
  .ok (some { hfEncodePlus c.tokenizer c.max_length c.padding s with
              labels := outp.map (fun o => hfEncodeIds c.tokenizer c.max_length_output c.padding o) })

/-- `EncodePlus.encode_plus(input_sequence, output_sequence,
input_highlight)`: highlight, task text, overflow checks (run when
`drop_overflow_text or not skip_overflow_error`), then numeric encoding. -/
def EncodePlus.encode_plus (c : EncodePlus) (input_sequence : Str)
    (output_sequence : Option Str := none) (input_highlight : Option Str := none) :
    Except Err (Option Encoding) :=
  match c.buildInput input_sequence input_highlight with
  | .error e => .error e
  | .ok none => .ok none
  | .ok (some s) =>
    if c.drop_overflow_text || !c.skip_overflow_error then
      if (c.tokenizer.encode s).length > c.max_length then
        if c.drop_overflow_text then .ok none else .error (.exceedMaxLength c.max_length)
      else
        match output_sequence with
        | some o =>
          if (c.tokenizer.encode o).length > c.max_length_output then
            if c.drop_overflow_text then .ok none else .error (.exceedMaxLength c.max_length)
          else c.finish s output_sequence
        | none => c.finish s output_sequence
    else c.finish s output_sequence

/-- `CE_IGNORE_INDEX = -100`, the cross-entropy ignore sentinel. -/
def CE_IGNORE_INDEX : Int := -100

/-- `log_probs.shape[-1]`: the vocabulary size of the (rectangular)
log-probability matrix. -/
def vocabSize (lp : List (List ℚ)) : Nat := (lp.headD []).length

/-- `log_probs.gather(dim=-1, index=labels)` at one position: the entry of
`row` at index `l` (labels are clamped to `≥ 0` before the gather). -/
def gatherRow (row : List ℚ) (l : Int) : ℚ := row.getD l.toNat 0

/-- Embedding of `label_smoothed_loss(logits, labels, epsilon)` from the
line `log_probs = -log_softmax(logits)` on; the torch `log_softmax` call is
an external collaborator, so the function takes the (negated) log-probability
matrix directly, flattened over the batch and sequence axes to one position
axis.  `labels.clamp_min_(0)` is an in-place tensor update in the source;
the embedding makes the effect explicit by returning the updated labels as
the second component. -/
def label_smoothed_loss (log_probs : List (List ℚ)) (labels : List Int)
    (epsilon : ℚ) : ℚ × List Int :=
  let padding_mask : List Bool := labels.map (fun l => l == CE_IGNORE_INDEX)
  let labels2 : List Int := labels.map (fun l => max l 0)
  let nll_terms : List ℚ :=
    (log_probs.zip (labels2.zip padding_mask)).map
      (fun x => if x.2.2 then 0 else gatherRow x.1 x.2.1)
  let smoothed_terms : List ℚ :=
    (log_probs.zip padding_mask).map (fun x => if x.2 then 0 else x.1.sum)
  let num_active : ℚ := ((labels.length : ℚ)) - (((padding_mask.filter id).length : ℚ))
  ((1 - epsilon) * (nll_terms.sum / num_active)
     + epsilon * (smoothed_terms.sum / (num_active * (vocabSize log_probs : ℚ))),
   labels2)

/-- Spec-side definition (from the words of the spec, section 4.6): the
count of non-padded positions. -/
def specActive (labels : List Int) : Nat :=
  (labels.filter (fun l => !(l == CE_IGNORE_INDEX))).length

/-- Spec-side definition: the sum over non-padded positions of the negative
log-probability of the true label, divided by the count of non-padded
positions (`nll` of the spec formula). -/
def specNll (lp : List (List ℚ)) (labels : List Int) : ℚ :=
  (((lp.zip labels).filter (fun x => !(x.2 == CE_IGNORE_INDEX))).map
      (fun x => gatherRow x.1 x.2)).sum / (specActive labels : ℚ)

/-- Spec-side definition: the sum over non-padded positions of the summed
negative log-probabilities over the vocabulary, divided by the count of
non-padded positions times the vocabulary size (`smoothed` of the spec
formula). -/
def specSmoothed (lp : List (List ℚ)) (labels : List Int) : ℚ :=
  (((lp.zip labels).filter (fun x => !(x.2 == CE_IGNORE_INDEX))).map
      (fun x => x.1.sum)).sum / ((specActive labels : ℚ) * (vocabSize lp : ℚ))

/-- The model object of the `T5` class, with its external collaborators:
`tokenizer`, the seq2seq model (`gen`, taking the beam count and one encoded
example of a batch to its decoded output text, covering
`model.generate` + `tokenizer.batch_decode`), and the sentence splitter.
`no_pfx` embeds the `no_prefix` attribute (set for BART-style models). -/
structure T5M where
  tokenizer : Tok
  max_length : Nat := 512
  max_length_output : Nat := 32
  no_pfx : Bool := false
  gen : Nat → Encoding → Str
  split : Str → List Str

/-- First data-assembly step of `get_data_loader`: zip inputs with the
optional outputs under the `assert len(outputs) == len(inputs)` check. -/
def T5M.prepData1 (inputs : List Str) :
    Option (List Str) → Except Err (List (Str × Option Str))
  | some outs =>
    if outs.length = inputs.length then .ok (inputs.zip (outs.map some))
    else .error .assertionError
  | none => .ok (inputs.map (fun i => (i, none)))

/-- Second data-assembly step of `get_data_loader`: append the optional
highlights under the `assert len(highlights) == len(inputs)` check. -/
def T5M.prepData2 (inputs : List Str) (d1 : List (Str × Option Str)) :
    Option (List (Option Str)) → Except Err (List (Str × Option Str × Option Str))
  | some hs =>
    if hs.length = inputs.length then
      .ok ((d1.zip hs).map (fun x => (x.1.1, x.1.2, x.2)))
    else .error .assertionError
  | none => .ok (d1.map (fun x => (x.1, x.2, none)))

/-- The data-assembly phase of `get_data_loader`: zip inputs with optional
outputs and optional highlights, with the `assert len(..) == len(inputs)`
checks. -/
def T5M.prepData (inputs : List Str) (outputs : Option (List Str))
    (highlights : Option (List (Option Str))) :
    Except Err (List (Str × Option Str × Option Str)) :=
  match T5M.prepData1 inputs outputs with
  | .error e => .error e
  | .ok d1 => T5M.prepData2 inputs d1 highlights

/-- The task-type resolution of `get_data_loader`: a model with `no_prefix`
accepts only `qg` (silently cleared) and rejects any other task type with
`ValueError`. -/
def T5M.resolveTask (m : T5M) (task_type : Option TaskType) :
    Except Err (Option TaskType) :=
  if m.no_pfx ∧ task_type.isSome then
    if task_type = some .qg then .ok none else .error .valueError
  else .ok task_type

/-- The sequential encoding loop of `get_data_loader` (the `Pool.map` branch
is an order-preserving stateless map with the same result and the same
exception propagation, so both branches share this embedding). -/
def mapME (f : α → Except Err β) : List α → Except Err (List β)
  | [] => .ok []
  | a :: l =>
    match f a with
    | .error e => .error e
    | .ok b =>
      match mapME f l with
      | .error e => .error e
      | .ok r => .ok (b :: r)

/-- Encode every data tuple with a fixed `EncodePlus` configuration and drop
the `None` results (`out = list(filter(None, out))`). -/
def encodeAll (c : EncodePlus) (data : List (Str × Option Str × Option Str)) :
    Except Err (List Encoding) :=
  match mapME (fun t => c.encode_plus t.1 t.2.1 t.2.2) data with
  | .error e => .error e
  | .ok r => .ok (r.filterMap id)

/-- The encode phase of `get_data_loader`: build the `EncodePlus`
configuration (padding is disabled for a single-element dataset), encode all
tuples and filter out the dropped ones. -/
def T5M.encodePhase (m : T5M) (data : List (Str × Option Str × Option Str))
    (task_type : Option TaskType)
    (drop_overflow_text skip_overflow_error skip_highlight_error : Bool) :
    Except Err (List Encoding) :=
  encodeAll
    { tokenizer := m.tokenizer, max_length := m.max_length,
      max_length_output := m.max_length_output,
      drop_overflow_text := drop_overflow_text,
      skip_overflow_error := skip_overflow_error,
      skip_highlight_error := skip_highlight_error,
      task_type := task_type,
      padding := decide (data.length ≠ 1) } data

/-- Fuel-driven batching helper; the fuel is an upper bound on the list
length, making the recursion structural. -/
def chunkF : Nat → Nat → List α → List (List α)
  | 0, _, _ => []
  | _ + 1, _, [] => []
  | fuel + 1, bs, a :: l => (a :: l.take (bs - 1)) :: chunkF fuel bs (l.drop (bs - 1))

/-- Split a list into batches of `bs` elements (the order-preserving,
shuffle-off batching of `torch.utils.data.DataLoader` with
`drop_last=False`, as used by every call site in scope).  Only called with
`bs > 0` (the loader rejects `batch_size = 0`). -/
def chunk (bs : Nat) (l : List α) : List (List α) := chunkF l.length bs l

/-- The result of `get_data_loader`: the batches it will yield, and the
content of the cache file after the call (`none` when no cache path was
supplied / no file exists). -/
structure LoaderResult where
  batches : List (List Encoding)
  cacheAfter : Option (List Encoding)
deriving DecidableEq, Repr

/-- Construction of the `DataLoader`: default batch size is the full dataset
size; `batch_size = 0` is rejected (torch raises `ValueError`). -/
def mkBatches (batch_size : Option Nat) (out : List Encoding)
    (after : Option (List Encoding)) : Except Err LoaderResult :=
  let bs := batch_size.getD out.length
  if bs = 0 then .error .valueError
  else .ok { batches := chunk bs out, cacheAfter := after }

/-- `T5.get_data_loader`.  The cache argument models the file system at the
cache path: `none` = no cache path supplied, `some none` = path supplied but
no file, `some (some L)` = path supplied and the file holds the pickled list
`L` (`pickle_save`/`pickle_load` are assumed faithful).  When the file
exists it is loaded verbatim and encoding is bypassed; otherwise the
post-filter encoded list is persisted when a path was supplied. -/
def T5M.get_data_loader (m : T5M) (inputs : List Str) (outputs : Option (List Str))
    (highlights : Option (List (Option Str))) (task_type : Option TaskType)
    (batch_size : Option Nat) (cache : Option (Option (List Encoding)))
    (drop_overflow_text skip_overflow_error skip_highlight_error : Bool) :
    Except Err LoaderResult :=
  match T5M.prepData inputs outputs highlights with
  | .error e => .error e
  | .ok data =>
    match m.resolveTask task_type with
    | .error e => .error e
    | .ok tp =>
      match cache with
      | some (some cached) => mkBatches batch_size cached (some cached)
      | c =>
        match m.encodePhase data tp drop_overflow_text skip_overflow_error skip_highlight_error with
        | .error e => .error e
        | .ok filtered =>
          mkBatches batch_size filtered (if c.isSome then some filtered else none)

/-- `T5.generate_prediction`: run the loader, then decode every batch in
order through beam-search generation (`model.generate` +
`tokenizer.batch_decode`, the external `gen` collaborator), concatenating
the per-batch outputs.  Returns the decoded strings and the cache-file
content after the call. -/
def T5M.generate_prediction (m : T5M) (list_context : List Str)
    (list_highlight : Option (List (Option Str))) (task_type : Option TaskType)
    (drop_overflow_text skip_overflow_error skip_highlight_error : Bool)
    (batch_size : Option Nat) (num_beams : Nat)
    (cache : Option (Option (List Encoding))) :
    Except Err (List Str × Option (List Encoding)) :=
  match m.get_data_loader list_context none list_highlight task_type batch_size cache
      drop_overflow_text skip_overflow_error skip_highlight_error with
  | .error e => .error e
  | .ok r => .ok ((r.batches.map (fun b => b.map (m.gen num_beams))).flatten, r.cacheAfter)

/-- `T5.generate_q`: question generation with task type `qg`; the answers
(when given) are passed as the highlight list. -/
def T5M.generate_q (m : T5M) (list_context : List Str)
    (list_answer : Option (List Str))
    (drop_overflow_text skip_overflow_error : Bool)
    (batch_size : Option Nat) (num_beams : Nat)
    (cache : Option (Option (List Encoding))) :
    Except Err (List Str × Option (List Encoding)) :=
  m.generate_prediction list_context (list_answer.map (fun l => l.map some))
    (some .qg) drop_overflow_text skip_overflow_error false batch_size num_beams cache

/-- The `clean` helper of `generate_a`: strip leading and trailing
whitespace (`re.sub` with `\A\s*` and `\s*\Z`); empty results become
`None`. -/
def pySpace (c : Char) : Bool :=
  c == ' ' || c == '\t' || c == '\n' || c == '\r' || c == '\x0b' || c == '\x0c'

/-- See `pySpace`; the whitespace-stripping `clean` of `generate_a`. -/
def clean (s : Str) : Option Str :=
  let t := ((s.dropWhile pySpace).reverse.dropWhile pySpace).reverse
  if t.isEmpty then none else some t

/-- `T5.generate_a`: answer extraction.  Requires a model with task-prefix
support (`assert not self.no_prefix`); one request per sentence with the
full context replicated as input and the cleaned sentence as the highlight;
decoded outputs are cleaned, empties dropped, out-of-context answers
dropped, and an empty remainder raises `AnswerNotFound(context)`. -/
def T5M.generate_a (m : T5M) (context : Str)
    (drop_overflow_text skip_overflow_error : Bool)
    (batch_size : Option Nat) (num_beams : Nat)
    (cache : Option (Option (List Encoding))) :
    Except Err (List Str × Option (List Encoding)) :=
  if m.no_pfx then .error .assertionError
  else
    let list_sentence := (m.split context).map clean
    let list_context := List.replicate list_sentence.length context
    match m.generate_prediction list_context (some list_sentence) (some .ans_ext)
        drop_overflow_text skip_overflow_error false batch_size num_beams cache with
    | .error e => .error e
    | .ok (out, fs) =>
      let out := (out.map clean).filterMap id
      let out := out.filter (fun x => isSubstring x context)
      if out.isEmpty then .error (.answerNotFound context) else .ok (out, fs)

/-- `T5.generate_qa`: answer extraction, then question generation over the
context replicated once per answer, guarded by
`assert len(list_answer) == len(list_question)`, then zipped.  The same
cache path is handed to both stages, so the second stage sees the cache
file state left by the first. -/
def T5M.generate_qa (m : T5M) (context : Str)
    (drop_overflow_text skip_overflow_error : Bool)
    (batch_size : Option Nat) (num_beams : Nat)
    (cache : Option (Option (List Encoding))) :
    Except Err (List (Str × Str)) :=
  match m.generate_a context drop_overflow_text skip_overflow_error batch_size num_beams cache with
  | .error e => .error e
  | .ok (list_answer, fs1) =>
    match m.generate_q (List.replicate list_answer.length context) (some list_answer)
        drop_overflow_text skip_overflow_error batch_size num_beams
        (cache.map (fun _ => fs1)) with
    | .error e => .error e
    | .ok (list_question, _) =>
      if list_answer.length = list_question.length then .ok (list_question.zip list_answer)
      else .error .assertionError

/-! ### Concrete instances used by witnesses and counterexamples -/

/-- A concrete character-level tokenizer: one token per character. -/
def charTok : Tok := { encode := fun s => s.map Char.toNat, padId := 0 }

/-- Concrete model for the C1 counterexample: `max_length = 21` admits the
`qg`-prefixed text of a 2-character context but not of a 4-character one. -/
def cexM : T5M :=
  { tokenizer := charTok, max_length := 21, max_length_output := 5,
    gen := fun _ _ => str "q", split := fun c => [c] }

/-- Concrete model for witnesses: generous length limits, a generator that
always decodes to `"ab"`, and a one-sentence splitter. -/
def wM : T5M :=
  { tokenizer := charTok, max_length := 100, max_length_output := 10,
    gen := fun _ _ => str "ab", split := fun c => [c] }

/-- Concrete `EncodePlus` configuration for overflow witnesses:
`drop_overflow_text` set. -/
def dropCfg : EncodePlus :=
  { tokenizer := charTok, max_length := 3, max_length_output := 2,
    drop_overflow_text := true }

/-- Concrete `EncodePlus` configuration for overflow witnesses: strict mode
(no drop, no suppression). -/
def strictCfg : EncodePlus :=
  { tokenizer := charTok, max_length := 3, max_length_output := 2 }

/-- Concrete `EncodePlus` configuration for overflow witnesses: suppression
mode (`skip_overflow_error` set, no drop). -/
def skipCfg : EncodePlus :=
  { tokenizer := charTok, max_length := 3, max_length_output := 2,
    skip_overflow_error := true }

/-- Concrete `EncodePlus` configuration with highlight-error suppression
enabled. -/
def skipHlCfg : EncodePlus :=
  { tokenizer := charTok, max_length := 100, max_length_output := 10,
    skip_highlight_error := true }

/-- Concrete `EncodePlus` configuration used by the C5 counterexample:
exactly the configuration `generate_a` induces for a two-element dataset
(task type `ans_ext`, padding on). -/
def ansExtCfg : EncodePlus :=
  { tokenizer := charTok, max_length := 100, max_length_output := 10,
    task_type := some .ans_ext }

/-! ### Helper lemmas -/

theorem findSub_isSome_iff (s pat : Str) : (findSub s pat).isSome ↔ pat <:+: s := by
  induction s with
  | nil =>
    cases pat <;> simp [findSub, List.isPrefixOf]
  | cons a t ih =>
    rw [findSub]
    by_cases hp : pat.isPrefixOf (a :: t)
    · simp only [hp, if_true, Option.isSome_some, true_iff]
      exact (List.isPrefixOf_iff_prefix.mp hp).isInfix
    · rw [if_neg (by simp [hp])]
      cases hft : findSub t pat with
      | none =>
        simp only [Option.map_none', Option.isSome_none, Bool.false_eq_true, false_iff]
        rw [List.infix_cons_iff]
        rintro (h | h)
        · exact hp (List.isPrefixOf_iff_prefix.mpr h)
        · rw [← ih, hft] at h
          simp at h
      | some q =>
        simp only [Option.map_some', Option.isSome_some, true_iff]
        rw [List.infix_cons_iff]
        refine Or.inr ?_
        rw [← ih, hft]
        rfl

theorem findSub_prefix_drop (s pat : Str) (p : Nat) (h : findSub s pat = some p) :
    pat <+: s.drop p := by
  induction s generalizing p with
  | nil =>
    rw [findSub] at h
    by_cases hp : pat.isPrefixOf ([] : Str)
    · simp only [hp, if_true, Option.some.injEq] at h
      subst h
      exact List.isPrefixOf_iff_prefix.mp hp
    · simp [hp] at h
  | cons a t ih =>
    rw [findSub] at h
    by_cases hp : pat.isPrefixOf (a :: t)
    · simp only [hp, if_true, Option.some.injEq] at h
      subst h
      exact List.isPrefixOf_iff_prefix.mp hp
    · rw [if_neg (by simp [hp])] at h
      cases hft : findSub t pat with
      | none => rw [hft] at h; simp at h
      | some q =>
        rw [hft] at h
        simp only [Option.map_some', Option.some.injEq] at h
        subst h
        simpa using ih q hft

theorem findSub_min (s pat : Str) (p : Nat) (h : findSub s pat = some p) :
    ∀ q, q < p → ¬ pat <+: s.drop q := by
  induction s generalizing p with
  | nil =>
    rw [findSub] at h
    by_cases hp : pat.isPrefixOf ([] : Str)
    · simp only [hp, if_true, Option.some.injEq] at h
      omega
    · simp [hp] at h
  | cons a t ih =>
    rw [findSub] at h
    by_cases hp : pat.isPrefixOf (a :: t)
    · simp only [hp, if_true, Option.some.injEq] at h
      omega
    · rw [if_neg (by simp [hp])] at h
      cases hft : findSub t pat with
      | none => rw [hft] at h; simp at h
      | some r =>
        rw [hft] at h
        simp only [Option.map_some', Option.some.injEq] at h
        subst h
        intro q hq
        cases q with
        | zero =>
          intro hpre
          exact hp (List.isPrefixOf_iff_prefix.mpr (by simpa using hpre))
        | succ q =>
          have := ih r hft q (by omega)
          simpa using this

theorem take_append_restore (s pat : Str) (p : Nat) (h : pat <+: s.drop p) :
    s.take p ++ pat ++ s.drop (p + pat.length) = s := by
  obtain ⟨r, hr⟩ := h
  have hdrop : s.drop (p + pat.length) = r := by
    have h2 : List.drop pat.length (List.drop p s) = r := by
      rw [← hr]
      exact List.drop_left pat r
    rw [← h2, List.drop_drop]
  rw [hdrop, List.append_assoc, hr, List.take_append_drop]

theorem mapME_length (f : α → Except Err β) (l : List α) (r : List β)
    (h : mapME f l = .ok r) : r.length = l.length := by
  induction l generalizing r with
  | nil => rw [mapME] at h; cases h; rfl
  | cons a t ih =>
    rw [mapME] at h
    cases hf : f a with
    | error e => rw [hf] at h; cases h
    | ok b =>
      rw [hf] at h
      cases ht : mapME f t with
      | error e => rw [ht] at h; cases h
      | ok rt =>
        rw [ht] at h
        cases h
        simp [ih rt ht]

theorem mapME_mem (f : α → Except Err β) (l : List α) (r : List β)
    (h : mapME f l = .ok r) : ∀ b ∈ r, ∃ a ∈ l, f a = .ok b := by
  induction l generalizing r with
  | nil => rw [mapME] at h; cases h; intro b hb; cases hb
  | cons a t ih =>
    rw [mapME] at h
    cases hf : f a with
    | error e => rw [hf] at h; cases h
    | ok b0 =>
      rw [hf] at h
      cases ht : mapME f t with
      | error e => rw [ht] at h; cases h
      | ok rt =>
        rw [ht] at h
        cases h
        intro b hb
        rcases List.mem_cons.mp hb with hb | hb
        · exact ⟨a, List.mem_cons_self a t, hb ▸ hf⟩
        · obtain ⟨a0, ha0, hfa0⟩ := ih rt ht b hb
          exact ⟨a0, List.mem_cons_of_mem a ha0, hfa0⟩

theorem buildInput_ne_none (c : EncodePlus) (inp : Str) (hl : Option Str)
    (hskip : c.skip_highlight_error = false) : c.buildInput inp hl ≠ .ok none := by
  unfold EncodePlus.buildInput
  cases hl with
  | none => simp
  | some h =>
    cases hf : findSub inp h with
    | none => simp [hf, hskip]
    | some p => simp [hf]

theorem encode_plus_ne_none (c : EncodePlus) (inp : Str) (outp hl : Option Str)
    (hdrop : c.drop_overflow_text = false) (hskip : c.skip_highlight_error = false) :
    c.encode_plus inp outp hl ≠ .ok none := by
  rw [EncodePlus.encode_plus]
  cases hb : c.buildInput inp hl with
  | error e => simp
  | ok o =>
    cases o with
    | none => exact absurd hb (buildInput_ne_none c inp hl hskip)
    | some s =>
      simp only
      split
      · split
        · simp [hdrop]
        · cases outp with
          | none => simp [EncodePlus.finish]
          | some o =>
            simp only
            split
            · simp [hdrop]
            · simp [EncodePlus.finish]
      · simp [EncodePlus.finish]

theorem filterMap_id_length (r : List (Option α)) (h : ∀ x ∈ r, x ≠ none) :
    (r.filterMap id).length = r.length := by
  induction r with
  | nil => rfl
  | cons a t ih =>
    cases a with
    | none => exact absurd rfl (h none (List.mem_cons_self _ _))
    | some b =>
      simp only [List.filterMap_cons, id_eq, List.length_cons]
      rw [ih (fun x hx => h x (List.mem_cons_of_mem _ hx))]

theorem chunkF_flatten (fuel bs : Nat) (l : List α) (h : l.length ≤ fuel) :
    (chunkF fuel bs l).flatten = l := by
  induction fuel generalizing l with
  | zero =>
    have : l = [] := List.length_eq_zero.mp (Nat.le_zero.mp h)
    subst this
    rfl
  | succ fuel ih =>
    cases l with
    | nil => rfl
    | cons a t =>
      rw [chunkF, List.flatten_cons]
      have hle : (t.drop (bs - 1)).length ≤ fuel := by
        rw [List.length_drop]
        simp only [List.length_cons] at h
        omega
      rw [ih (t.drop (bs - 1)) hle]
      simp [List.take_append_drop]

theorem chunk_flatten (bs : Nat) (l : List α) : (chunk bs l).flatten = l :=
  chunkF_flatten l.length bs l le_rfl

theorem chunk_map_flatten (g : α → β) (bs : Nat) (l : List α) :
    ((chunk bs l).map (fun b => b.map g)).flatten = l.map g := by
  rw [← List.map_flatten, chunk_flatten]

theorem prepData1_length (inputs : List Str) (outputs : Option (List Str))
    (d1 : List (Str × Option Str)) (h : T5M.prepData1 inputs outputs = .ok d1) :
    d1.length = inputs.length := by
  cases outputs with
  | none =>
    rw [T5M.prepData1] at h
    cases h
    simp
  | some outs =>
    rw [T5M.prepData1] at h
    split at h
    · cases h
      simp [List.length_zip]
      omega
    · cases h

theorem prepData2_length (inputs : List Str) (d1 : List (Str × Option Str))
    (highlights : Option (List (Option Str)))
    (data : List (Str × Option Str × Option Str))
    (h : T5M.prepData2 inputs d1 highlights = .ok data)
    (hd1 : d1.length = inputs.length) : data.length = inputs.length := by
  cases highlights with
  | none =>
    rw [T5M.prepData2] at h
    cases h
    simp [hd1]
  | some hs =>
    rw [T5M.prepData2] at h
    split at h
    · cases h
      simp_all [List.length_zip]
    · cases h

theorem prepData_length (inputs : List Str) (outputs : Option (List Str))
    (highlights : Option (List (Option Str)))
    (data : List (Str × Option Str × Option Str))
    (h : T5M.prepData inputs outputs highlights = .ok data) :
    data.length = inputs.length := by
  rw [T5M.prepData] at h
  cases h1 : T5M.prepData1 inputs outputs with
  | error e => rw [h1] at h; cases h
  | ok d1 =>
    rw [h1] at h
    exact prepData2_length inputs d1 highlights data h (prepData1_length inputs outputs d1 h1)

theorem hfEncodePlus_ids_length (tok : Tok) (maxLen : Nat) (padding : Bool) (s : Str) :
    (hfEncodePlus tok maxLen padding s).input_ids.length ≤ maxLen := by
  rw [hfEncodePlus]
  cases padding <;>
    simp [List.length_take, List.length_replicate]

theorem hfEncodeIds_length (tok : Tok) (maxLen : Nat) (padding : Bool) (s : Str) :
    (hfEncodeIds tok maxLen padding s).length ≤ maxLen := by
  rw [hfEncodeIds]
  cases padding <;>
    simp [List.length_take, List.length_replicate]

/-! ### Claim theorems -/

/-- Claim C2: for every context `C` and span `S` that is a literal substring
of `C`, the highlighter finds the first occurrence of `S` (no earlier
position carries the span), replaces it by the marker-wrapped span at the
original position with all other text unchanged, and removing the two
inserted marker blocks restores `C` exactly. -/
theorem C2_highlighter_roundtrip (C S : Str) (h : S <:+: C) :
    ∃ p, findSub C S = some p ∧
      (∀ q, q < p → ¬ S <+: C.drop q) ∧
      highlighted C S p
        = C.take p ++ (hlMark ++ [' '] ++ S ++ [' '] ++ hlMark) ++ C.drop (p + S.length) ∧
      C.take p ++ S ++ C.drop (p + S.length) = C := by
  obtain ⟨p, hp⟩ := Option.isSome_iff_exists.mp ((findSub_isSome_iff C S).mpr h)
  exact ⟨p, hp, findSub_min C S p hp, by simp [highlighted],
    take_append_restore C S p (findSub_prefix_drop C S p hp)⟩

/-- Witness for C2 at the spec scenario: context
`"Tokyo is the capital of Japan."`, span `"Tokyo"`. -/
theorem C2_highlighter_roundtrip_witness :
    (str "Tokyo") <:+: (str "Tokyo is the capital of Japan.") ∧
    (∃ p, findSub (str "Tokyo is the capital of Japan.") (str "Tokyo") = some p ∧
      (∀ q, q < p → ¬ (str "Tokyo") <+: (str "Tokyo is the capital of Japan.").drop q) ∧
      highlighted (str "Tokyo is the capital of Japan.") (str "Tokyo") p
        = (str "Tokyo is the capital of Japan.").take p
            ++ (hlMark ++ [' '] ++ (str "Tokyo") ++ [' '] ++ hlMark)
            ++ (str "Tokyo is the capital of Japan.").drop (p + (str "Tokyo").length) ∧
      (str "Tokyo is the capital of Japan.").take p ++ (str "Tokyo")
          ++ (str "Tokyo is the capital of Japan.").drop (p + (str "Tokyo").length)
        = str "Tokyo is the capital of Japan.") :=
  ⟨by decide, C2_highlighter_roundtrip _ _ (by decide)⟩

/-- Claim C9: for every context `C` and span `S` not a substring of `C`,
encoding with highlight `S` raises `HighlightNotFound(S, C)`; with
suppression enabled the encoder returns `None` instead and the example is
absent from the filtered (post-drop) encoded list of the batch. -/
theorem C9_highlight_missing (c : EncodePlus) (ctx span : Str) (outp : Option Str)
    (h : ¬ span <:+: ctx) :
    (c.skip_highlight_error = false →
      c.encode_plus ctx outp (some span) = .error (.highlightNotFound span ctx)) ∧
    (c.skip_highlight_error = true →
      c.encode_plus ctx outp (some span) = .ok none ∧
      ∀ rest, encodeAll c ((ctx, outp, some span) :: rest) = encodeAll c rest) := by
  have hf : findSub ctx span = none := by
    cases hfs : findSub ctx span with
    | none => rfl
    | some p =>
      exact absurd ((findSub_isSome_iff ctx span).mp (by rw [hfs]; rfl)) h
  constructor
  · intro hskip
    rw [EncodePlus.encode_plus, EncodePlus.buildInput]
    simp [hf, hskip]
  · intro hskip
    have hok : c.encode_plus ctx outp (some span) = .ok none := by
      rw [EncodePlus.encode_plus, EncodePlus.buildInput]
      simp [hf, hskip]
    refine ⟨hok, fun rest => ?_⟩
    rw [encodeAll, encodeAll, mapME]
    rw [hok]
    cases mapME (fun t => c.encode_plus t.1 t.2.1 t.2.2) rest with
    | error e => rfl
    | ok r => simp [List.filterMap_cons]

/-- Witness for C9: span `"xy"` absent from context `"ab"`, in strict and in
suppression mode. -/
theorem C9_highlight_missing_witness :
    (¬ (str "xy") <:+: (str "ab")) ∧
    strictCfg.encode_plus (str "ab") none (some (str "xy"))
      = .error (.highlightNotFound (str "xy") (str "ab")) ∧
    (skipHlCfg.encode_plus (str "ab") none (some (str "xy")) = .ok none ∧
      ∀ rest, encodeAll skipHlCfg ((str "ab", none, some (str "xy")) :: rest)
        = encodeAll skipHlCfg rest) :=
  ⟨by decide,
   (C9_highlight_missing strictCfg (str "ab") (str "xy") none (by decide)).1 rfl,
   (C9_highlight_missing skipHlCfg (str "ab") (str "xy") none (by decide)).2 rfl⟩

/-- Claim C4: for every input whose tokenized length exceeds the max input
length, the encoder returns `None` when `drop_overflow_text` is set, raises
`ExceedMaxLength` when it is unset and overflow errors are not suppressed,
and with suppression performs no overflow check, the input being truncated
at encode time; the same rule holds for a target text against the max
output length (given an in-bounds input). -/
theorem C4_overflow_modes (c : EncodePlus) (inp : Str) (outp hl : Option Str) (s : Str)
    (hb : c.buildInput inp hl = .ok (some s)) :
    ((c.tokenizer.encode s).length > c.max_length →
      (c.drop_overflow_text = true → c.encode_plus inp outp hl = .ok none) ∧
      (c.drop_overflow_text = false → c.skip_overflow_error = false →
        c.encode_plus inp outp hl = .error (.exceedMaxLength c.max_length)) ∧
      (c.drop_overflow_text = false → c.skip_overflow_error = true →
        ∃ e, c.encode_plus inp outp hl = .ok (some e) ∧
          e.input_ids.length ≤ c.max_length)) ∧
    (∀ o, outp = some o → (c.tokenizer.encode s).length ≤ c.max_length →
      (c.tokenizer.encode o).length > c.max_length_output →
      (c.drop_overflow_text = true → c.encode_plus inp outp hl = .ok none) ∧
      (c.drop_overflow_text = false → c.skip_overflow_error = false →
        c.encode_plus inp outp hl = .error (.exceedMaxLength c.max_length)) ∧
      (c.drop_overflow_text = false → c.skip_overflow_error = true →
        ∃ e lab, c.encode_plus inp outp hl = .ok (some e) ∧ e.labels = some lab ∧
          lab.length ≤ c.max_length_output)) := by
  constructor
  · intro hover
    refine ⟨fun hdrop => ?_, fun hdrop hskip => ?_, fun hdrop hskip => ?_⟩
    · rw [EncodePlus.encode_plus, hb]
      simp [hdrop, hover]
    · rw [EncodePlus.encode_plus, hb]
      simp [hdrop, hskip, hover]
    · rw [EncodePlus.encode_plus, hb]
      simp only [hdrop, hskip, Bool.not_true, Bool.or_false]
      rw [if_neg (by simp)]
      rw [EncodePlus.finish]
      refine ⟨_, rfl, ?_⟩
      exact hfEncodePlus_ids_length c.tokenizer c.max_length c.padding s
  · rintro o rfl hin hover
    refine ⟨fun hdrop => ?_, fun hdrop hskip => ?_, fun hdrop hskip => ?_⟩
    · rw [EncodePlus.encode_plus, hb]
      simp [hdrop, Nat.not_lt.mpr hin, hover]
    · rw [EncodePlus.encode_plus, hb]
      simp [hdrop, hskip, Nat.not_lt.mpr hin, hover]
    · rw [EncodePlus.encode_plus, hb]
      simp only [hdrop, hskip, Bool.not_true, Bool.or_false]
      rw [if_neg (by simp)]
      rw [EncodePlus.finish]
      refine ⟨_, _, rfl, rfl, ?_⟩
      exact hfEncodeIds_length c.tokenizer c.max_length_output c.padding o

/-- Witness for C4: input `"abcd"` (4 tokens, limit 3) in all three input
modes, and target `"abc"` (3 tokens, limit 2) in drop mode. -/
theorem C4_overflow_modes_witness :
    (dropCfg.buildInput (str "abcd") none = .ok (some (str "abcd")) ∧
      dropCfg.encode_plus (str "abcd") none none = .ok none) ∧
    (strictCfg.encode_plus (str "abcd") none none
      = .error (.exceedMaxLength strictCfg.max_length)) ∧
    (∃ e, skipCfg.encode_plus (str "abcd") none none = .ok (some e) ∧
      e.input_ids.length ≤ skipCfg.max_length) ∧
    (dropCfg.encode_plus (str "ab") (some (str "abc")) none = .ok none) :=
  ⟨⟨rfl, ((C4_overflow_modes dropCfg (str "abcd") none none (str "abcd") rfl).1
      (by decide)).1 rfl⟩,
   ((C4_overflow_modes strictCfg (str "abcd") none none (str "abcd") rfl).1
      (by decide)).2.1 rfl rfl,
   ((C4_overflow_modes skipCfg (str "abcd") none none (str "abcd") rfl).1
      (by decide)).2.2 rfl rfl,
   ((C4_overflow_modes dropCfg (str "ab") (some (str "abc")) none (str "ab") rfl).2
      (str "abc") rfl (by decide) (by decide)).1 rfl⟩

/-- Claim C10 (implicit, from the code): when a target text overflows the
max output length in strict mode, the `ExceedMaxLength` error carries
`max_length` (the input limit), not `max_length_output`. -/
theorem C10_wrong_limit_in_error (c : EncodePlus) (inp o : Str) (hl : Option Str) (s : Str)
    (hb : c.buildInput inp hl = .ok (some s))
    (hdrop : c.drop_overflow_text = false)
    (hskip : c.skip_overflow_error = false)
    (hin : (c.tokenizer.encode s).length ≤ c.max_length)
    (hout : (c.tokenizer.encode o).length > c.max_length_output) :
    c.encode_plus inp (some o) hl = .error (.exceedMaxLength c.max_length) := by
  rw [EncodePlus.encode_plus, hb]
  simp [hdrop, hskip, Nat.not_lt.mpr hin, hout]

/-- Witness for C10: `strictCfg` has distinct limits (3 vs 2); the target
`"abc"` exceeds the output limit 2, yet the error payload is 3. -/
theorem C10_wrong_limit_in_error_witness :
    strictCfg.max_length ≠ strictCfg.max_length_output ∧
    strictCfg.encode_plus (str "ab") (some (str "abc")) none
      = .error (.exceedMaxLength strictCfg.max_length) :=
  ⟨by decide,
   C10_wrong_limit_in_error strictCfg (str "ab") (str "abc") none (str "ab")
     rfl rfl rfl (by decide) (by decide)⟩

theorem gatherRow_clamp (row : List ℚ) (l : Int) :
    gatherRow row (max l 0) = gatherRow row l := by
  rw [gatherRow, gatherRow]
  congr 1
  omega

theorem masked_gather_sum (lp : List (List ℚ)) (labels : List Int) :
    ((lp.zip ((labels.map (fun l => max l 0)).zip
        (labels.map (fun l => l == CE_IGNORE_INDEX)))).map
        (fun x => if x.2.2 then 0 else gatherRow x.1 x.2.1)).sum
      = (((lp.zip labels).filter (fun x => !(x.2 == CE_IGNORE_INDEX))).map
          (fun x => gatherRow x.1 x.2)).sum := by
  induction lp generalizing labels with
  | nil => simp
  | cons row lp ih =>
    cases labels with
    | nil => simp
    | cons l labels =>
      by_cases hl : l = CE_IGNORE_INDEX
      · simp [hl, ih]
      · simp only [List.map_cons, List.zip_cons_cons, List.filter_cons]
        have hb : (l == CE_IGNORE_INDEX) = false := by simp [hl]
        simp only [hb, Bool.false_eq_true, if_false, Bool.not_false, if_true,
          List.map_cons, List.sum_cons]
        rw [gatherRow_clamp, ih]

theorem masked_row_sum (lp : List (List ℚ)) (labels : List Int) :
    ((lp.zip (labels.map (fun l => l == CE_IGNORE_INDEX))).map
        (fun x => if x.2 then 0 else x.1.sum)).sum
      = (((lp.zip labels).filter (fun x => !(x.2 == CE_IGNORE_INDEX))).map
          (fun x => x.1.sum)).sum := by
  induction lp generalizing labels with
  | nil => simp
  | cons row lp ih =>
    cases labels with
    | nil => simp
    | cons l labels =>
      by_cases hl : l = CE_IGNORE_INDEX
      · simp [hl, ih]
      · simp only [List.map_cons, List.zip_cons_cons, List.filter_cons]
        have hb : (l == CE_IGNORE_INDEX) = false := by simp [hl]
        simp only [hb, Bool.false_eq_true, if_false, Bool.not_false, if_true,
          List.map_cons, List.sum_cons]
        rw [ih]

theorem count_split (labels : List Int) :
    ((labels.map (fun l => l == CE_IGNORE_INDEX)).filter id).length
      + specActive labels = labels.length := by
  induction labels with
  | nil => rfl
  | cons l labels ih =>
    by_cases hl : l = CE_IGNORE_INDEX
    · simp only [specActive, List.map_cons, List.filter_cons] at ih ⊢
      simp [hl, ← ih]
      omega
    · have hb : (l == CE_IGNORE_INDEX) = false := by simp [hl]
      simp only [specActive, List.map_cons, List.filter_cons] at ih ⊢
      simp [hb, ← ih]
      omega

theorem active_count (labels : List Int) :
    ((labels.length : ℚ))
        - (((labels.map (fun l => l == CE_IGNORE_INDEX)).filter id).length : ℚ)
      = (specActive labels : ℚ) := by
  have h := count_split labels
  have h' : ((labels.length : ℚ))
      = (((labels.map (fun l => l == CE_IGNORE_INDEX)).filter id).length : ℚ)
        + (specActive labels : ℚ) := by
    rw [← h]
    push_cast
    ring
  rw [h']
  ring

/-- Claim C7: the label-smoothed loss equals
`(1-ε) * nll + ε * smoothed` with `nll` and `smoothed` as the spec defines
them (sums over non-padded positions normalized by the active count,
resp. active count times vocabulary size), and at `ε = 0` it equals the
plain negative-log-likelihood loss over non-padded positions. -/
theorem C7_loss_formula (lp : List (List ℚ)) (labels : List Int) (epsilon : ℚ)
    (he0 : 0 ≤ epsilon) (he1 : epsilon ≤ 1) :
    (label_smoothed_loss lp labels epsilon).1
      = (1 - epsilon) * specNll lp labels + epsilon * specSmoothed lp labels ∧
    (label_smoothed_loss lp labels 0).1 = specNll lp labels := by
  have key : ∀ e : ℚ, (label_smoothed_loss lp labels e).1
      = (1 - e) * specNll lp labels + e * specSmoothed lp labels := by
    intro e
    simp only [label_smoothed_loss, specNll, specSmoothed]
    rw [masked_gather_sum, masked_row_sum, active_count]
  exact ⟨key epsilon, by rw [key 0]; ring⟩

/-- Witness for C7 at `ε = 1/2`, log-probs `[[1, 2], [3, 4]]`, labels
`[0, -100]`. -/
theorem C7_loss_formula_witness :
    (0 : ℚ) ≤ 1 / 2 ∧ (1 / 2 : ℚ) ≤ 1 ∧
    ((label_smoothed_loss [[1, 2], [3, 4]] [0, -100] (1 / 2)).1
        = (1 - 1 / 2) * specNll [[1, 2], [3, 4]] [0, -100]
          + (1 / 2) * specSmoothed [[1, 2], [3, 4]] [0, -100] ∧
      (label_smoothed_loss [[1, 2], [3, 4]] [0, -100] 0).1
        = specNll [[1, 2], [3, 4]] [0, -100]) :=
  ⟨by norm_num, by norm_num,
   C7_loss_formula [[1, 2], [3, 4]] [0, -100] (1 / 2) (by norm_num) (by norm_num)⟩

/-- Claim C6 is refuted by the code: `labels.clamp_min_(0)` updates the
labels tensor in place, so after computing the label-smoothed loss an
ignore-sentinel position holds `0`, not the sentinel `-100`.  This theorem
evaluates the embedded code at the failing input. -/
theorem C6_labels_mutated :
    (label_smoothed_loss [[0, 0]] [CE_IGNORE_INDEX] 0).2 = [0] ∧
    [(0 : Int)] ≠ [CE_IGNORE_INDEX] := by
  constructor
  · rfl
  · decide

theorem zip_replicate_data (ctx : Str) (sents : List (Option Str)) :
    (((List.replicate sents.length ctx).map (fun i => (i, (none : Option Str)))).zip sents).map
        (fun x => (x.1.1, x.1.2, x.2)) = sents.map (fun h => (ctx, none, h)) := by
  induction sents with
  | nil => rfl
  | cons a t ih =>
    simp only [List.length_cons, List.replicate_succ, List.map_cons,
      List.zip_cons_cons, ih]

/-- Claim C5, amended: the answer-extraction stage builds one encoding
request per sentence, with task type `ans_ext` and the full context
replicated as the input text of every request — but the cleaned sentence is
passed as the highlight span, so the built encoder input does contain the
highlight markers, wrapped around the first occurrence of the sentence in
the context. -/
theorem C5_amended_ans_ext_requests (m : T5M) (ctx : Str) (c : EncodePlus)
    (hc : c.task_type = some .ans_ext) :
    (T5M.prepData (List.replicate ((m.split ctx).map clean).length ctx) none
        (some ((m.split ctx).map clean))
      = .ok (((m.split ctx).map clean).map (fun h => (ctx, none, h)))) ∧
    (∀ h p, findSub ctx h = some p →
      c.buildInput ctx (some h)
        = .ok (some (taskTypeText .ans_ext ++ (':' :: ' ' :: []) ++ highlighted ctx h p)) ∧
      hlMark <:+: (taskTypeText .ans_ext ++ (':' :: ' ' :: []) ++ highlighted ctx h p)) := by
  constructor
  · simp only [T5M.prepData, T5M.prepData1, T5M.prepData2]
    rw [if_pos (by simp [List.length_replicate])]
    rw [zip_replicate_data]
  · intro h p hf
    constructor
    · rw [EncodePlus.buildInput]
      simp [hf, EncodePlus.applyTask, hc]
    · exact ⟨taskTypeText .ans_ext ++ (':' :: ' ' :: []) ++ ctx.take p,
        [' '] ++ h ++ [' '] ++ hlMark ++ ctx.drop (p + h.length),
        by simp [highlighted]⟩

/-- Witness for the amended C5 at context `"ab."` with the one-sentence
splitter of `wM`. -/
theorem C5_amended_ans_ext_requests_witness :
    (T5M.prepData [str "ab."] none (some [some (str "ab.")])
      = .ok [(str "ab.", none, some (str "ab."))]) ∧
    (ansExtCfg.buildInput (str "ab.") (some (str "ab."))
      = .ok (some (str "extract answers: <hl> ab. <hl>")) ∧
      hlMark <:+: str "extract answers: <hl> ab. <hl>") :=
  ⟨(C5_amended_ans_ext_requests wM (str "ab.") ansExtCfg rfl).1,
   (C5_amended_ans_ext_requests wM (str "ab.") ansExtCfg rfl).2 (str "ab.") 0 rfl⟩

/-- Counterexample to C5 as stated: for the request the answer-extraction
stage builds for context `"ab."` (whose single sentence cleans to `"ab."`
and is passed as the highlight), the encoded input contains the highlight
marker and differs from the marker-free encoding — refuting "the sentence
plays no highlighting role (no highlight markers are inserted into the
encoded input)". -/
theorem C5_counterexample :
    clean (str "ab.") = some (str "ab.") ∧
    wM.encodePhase [(str "ab.", none, clean (str "ab."))] (some .ans_ext) false false false
      = .ok [{ input_ids := (str "extract answers: <hl> ab. <hl>").map Char.toNat,
               attention_mask := List.replicate 30 1, labels := none }] ∧
    hlMark <:+: str "extract answers: <hl> ab. <hl>" ∧
    (str "extract answers: <hl> ab. <hl>").map Char.toNat
      ≠ (str "extract answers: ab.").map Char.toNat := by
  refine ⟨by decide, by decide, by decide, by decide⟩

theorem encodeAll_no_drop_length (c : EncodePlus)
    (hd : c.drop_overflow_text = false) (hsk : c.skip_highlight_error = false)
    (data : List (Str × Option Str × Option Str)) (L : List Encoding)
    (h : encodeAll c data = .ok L) : L.length = data.length := by
  rw [encodeAll] at h
  cases hm : mapME (fun t => c.encode_plus t.1 t.2.1 t.2.2) data with
  | error e => rw [hm] at h; cases h
  | ok r =>
    rw [hm] at h
    cases h
    have hmem : ∀ x ∈ r, x ≠ none := by
      intro x hx hxn
      obtain ⟨a, _, hfa⟩ := mapME_mem _ _ _ hm x hx
      subst hxn
      exact encode_plus_ne_none c a.1 a.2.1 a.2.2 hd hsk hfa
    rw [filterMap_id_length r hmem, mapME_length _ _ _ hm]

theorem flatten_map_length (g : α → β) (L : List (List α)) :
    ((L.map (fun b => b.map g)).flatten).length = L.flatten.length := by
  simp [List.length_flatten, Function.comp_def, List.length_map]

theorem get_data_loader_fresh_length (m : T5M) (inputs : List Str)
    (outputs : Option (List Str)) (highlights : Option (List (Option Str)))
    (tt : Option TaskType) (bsz : Option Nat) (cache : Option (Option (List Encoding)))
    (sk : Bool) (r : LoaderResult)
    (hcache : cache = none ∨ cache = some none)
    (h : m.get_data_loader inputs outputs highlights tt bsz cache false sk false = .ok r) :
    r.batches.flatten.length = inputs.length := by
  rw [T5M.get_data_loader] at h
  cases hp : T5M.prepData inputs outputs highlights with
  | error e => rw [hp] at h; cases h
  | ok data =>
    rw [hp] at h
    cases hr : m.resolveTask tt with
    | error e => rw [hr] at h; cases h
    | ok tp =>
      rw [hr] at h
      have h2 : (match m.encodePhase data tp false sk false with
          | Except.error e => (Except.error e : Except Err LoaderResult)
          | Except.ok filtered =>
            mkBatches bsz filtered (if cache.isSome then some filtered else none)) =
            Except.ok r := by
        rcases hcache with rfl | rfl
        · exact h
        · exact h
      cases he : m.encodePhase data tp false sk false with
      | error e => rw [he] at h2; cases h2
      | ok L =>
        rw [he] at h2
        simp only [mkBatches] at h2
        split at h2
        · cases h2
        · cases h2
          rw [chunk_flatten]
          rw [T5M.encodePhase] at he
          rw [encodeAll_no_drop_length _ rfl rfl data L he]
          exact prepData_length inputs outputs highlights data hp

/-- Claim C1, amended: whenever `generate_qa` returns, its output has
exactly one (question, answer) pair per answer returned by the extraction
stage (the zip is guarded by the length assertion); and `generate_q`
returns a list whose length equals the length of its input context list
provided `drop_overflow_text` is unset and no pre-existing cache file is
loaded (with dropping enabled, the output can be shorter than the input). -/
theorem C1_amended_lengths (m : T5M) (ctx : Str) (ctxs : List Str)
    (ans : Option (List Str)) (d sk : Bool) (bsz : Option Nat) (nb : Nat)
    (cache : Option (Option (List Encoding))) :
    (∀ out, m.generate_qa ctx d sk bsz nb cache = .ok out →
      ∃ a fs, m.generate_a ctx d sk bsz nb cache = .ok (a, fs) ∧
        out.length = a.length) ∧
    (∀ out fs, cache = none ∨ cache = some none →
      m.generate_q ctxs ans false sk bsz nb cache = .ok (out, fs) →
      out.length = ctxs.length) := by
  constructor
  · intro out hqa
    rw [T5M.generate_qa] at hqa
    cases ha : m.generate_a ctx d sk bsz nb cache with
    | error e => rw [ha] at hqa; cases hqa
    | ok p =>
      obtain ⟨a, fs⟩ := p
      rw [ha] at hqa
      simp only [] at hqa
      cases hq : m.generate_q (List.replicate a.length ctx) (some a) d sk bsz nb
          (cache.map fun _ => fs) with
      | error e => rw [hq] at hqa; cases hqa
      | ok q =>
        obtain ⟨qs, fs2⟩ := q
        rw [hq] at hqa
        simp only [] at hqa
        by_cases hlen : a.length = qs.length
        · rw [if_pos hlen] at hqa
          cases hqa
          exact ⟨a, fs, rfl, by rw [List.length_zip]; omega⟩
        · rw [if_neg hlen] at hqa
          cases hqa
  · intro out fs hcache hq
    rw [T5M.generate_q, T5M.generate_prediction] at hq
    cases hl : m.get_data_loader ctxs none (ans.map fun l => l.map some) (some .qg)
        bsz cache false sk false with
    | error e => rw [hl] at hq; cases hq
    | ok r =>
      rw [hl] at hq
      cases hq
      rw [flatten_map_length]
      exact get_data_loader_fresh_length m ctxs none _ (some .qg) bsz cache sk r hcache hl

/-- Witness for the amended C1: a full `generate_qa` run and a no-drop
`generate_q` run on the concrete model `wM`. -/
theorem C1_amended_lengths_witness :
    (wM.generate_qa (str "ab.") false false none 1 none = .ok [(str "ab", str "ab")] ∧
      ∃ a fs, wM.generate_a (str "ab.") false false none 1 none = .ok (a, fs) ∧
        ([(str "ab", str "ab")]).length = a.length) ∧
    (wM.generate_q [str "ab."] (some [str "ab"]) false false none 1 none
        = .ok ([str "ab"], none) ∧
      ([str "ab"]).length = [str "ab."].length) :=
  ⟨⟨by decide,
    (C1_amended_lengths wM (str "ab.") [] none false false none 1 none).1 _ (by decide)⟩,
   ⟨by decide,
    (C1_amended_lengths wM (str "ab.") [str "ab."] (some [str "ab"]) false false none 1
        none).2 [str "ab"] none (Or.inl rfl) (by decide)⟩⟩

/-- Counterexample to C1 as stated: with `drop_overflow_text` set, a context
whose `qg`-prefixed text overflows `max_length = 21` is silently dropped, so
`generate_q` returns 1 output for 2 input contexts. -/
theorem C1_counterexample :
    cexM.generate_q [str "ab", str "abcd"] none true false none 1 none
      = .ok ([str "q"], none) ∧
    ([str "q"]).length ≠ ([str "ab", str "abcd"]).length := by
  exact ⟨by decide, by decide⟩

/-- Claim C3: `generate_a` returns the decoded model outputs after trimming
whitespace (`clean`), dropping empties, and dropping strings that are not
literal substrings of the context; it fails with `AnswerNotFound(context)`
exactly when that filtered list is empty. -/
theorem C3_generate_a_filter (m : T5M) (ctx : Str) (d sk : Bool)
    (bsz : Option Nat) (nb : Nat) (cache : Option (Option (List Encoding)))
    (preds : List Str) (fs : Option (List Encoding))
    (hnp : m.no_pfx = false)
    (hp : m.generate_prediction (List.replicate ((m.split ctx).map clean).length ctx)
        (some ((m.split ctx).map clean)) (some .ans_ext) d sk false bsz nb cache
      = .ok (preds, fs)) :
    (((preds.map clean).filterMap id).filter (fun x => isSubstring x ctx) = [] →
      m.generate_a ctx d sk bsz nb cache = .error (.answerNotFound ctx)) ∧
    (((preds.map clean).filterMap id).filter (fun x => isSubstring x ctx) ≠ [] →
      m.generate_a ctx d sk bsz nb cache
        = .ok (((preds.map clean).filterMap id).filter (fun x => isSubstring x ctx), fs)) := by
  have hbody : m.generate_a ctx d sk bsz nb cache =
      (if (((preds.map clean).filterMap id).filter (fun x => isSubstring x ctx)).isEmpty
       then .error (.answerNotFound ctx)
       else .ok (((preds.map clean).filterMap id).filter (fun x => isSubstring x ctx), fs)) := by
    rw [T5M.generate_a, if_neg (by simp [hnp])]
    simp only []
    rw [hp]
  constructor
  · intro hemp
    rw [hbody, if_pos (by rw [hemp]; rfl)]
  · intro hne
    rw [hbody, if_neg (by simp only [List.isEmpty_iff]; exact hne)]

/-- Witness for C3 on the concrete model `wM` (decoded output `"ab"`, a
substring of context `"ab."`). -/
theorem C3_generate_a_filter_witness :
    wM.no_pfx = false ∧
    wM.generate_a (str "ab.") false false none 1 none = .ok ([str "ab"], none) :=
  ⟨rfl,
   (C3_generate_a_filter wM (str "ab.") false false none 1 none [str "ab"] none rfl
      (by decide)).2 (by decide)⟩

/-- Claim C8: with a cache path supplied and no cache file, the loader
persists the post-filter encoded list before returning batches built from
it; re-running the loader against the persisted cache yields the very same
result (batches from the cached list verbatim, equal to encoding fresh). -/
theorem C8_cache_roundtrip (m : T5M) (inputs : List Str) (outputs : Option (List Str))
    (highlights : Option (List (Option Str))) (tt : Option TaskType)
    (bsz : Option Nat) (d sk sh : Bool) (r : LoaderResult)
    (h : m.get_data_loader inputs outputs highlights tt bsz (some none) d sk sh = .ok r) :
    (∃ data tp L, T5M.prepData inputs outputs highlights = .ok data ∧
      m.resolveTask tt = .ok tp ∧
      m.encodePhase data tp d sk sh = .ok L ∧
      r.cacheAfter = some L ∧
      r.batches = chunk (bsz.getD L.length) L) ∧
    m.get_data_loader inputs outputs highlights tt bsz (some r.cacheAfter) d sk sh
      = .ok r := by
  rw [T5M.get_data_loader] at h
  cases hp : T5M.prepData inputs outputs highlights with
  | error e => rw [hp] at h; cases h
  | ok data =>
    rw [hp] at h
    simp only [] at h
    cases hr : m.resolveTask tt with
    | error e => rw [hr] at h; cases h
    | ok tp =>
      rw [hr] at h
      simp only [] at h
      cases he : m.encodePhase data tp d sk sh with
      | error e => rw [he] at h; cases h
      | ok L =>
        rw [he] at h
        simp only [mkBatches, Option.isSome_some, if_true] at h
        by_cases hbs : bsz.getD L.length = 0
        · rw [if_pos hbs] at h
          cases h
        · rw [if_neg hbs] at h
          cases h
          refine ⟨⟨data, tp, L, rfl, rfl, he, rfl, rfl⟩, ?_⟩
          rw [T5M.get_data_loader, hp, hr]
          simp only [mkBatches]
          rw [if_neg hbs]

/-- Witness for C8: a fresh run over input `["ab"]` persists the one
encoded example and a second run against that cache reproduces the result. -/
theorem C8_cache_roundtrip_witness :
    (wM.get_data_loader [str "ab"] none none none none (some none) false false false
      = .ok { batches := [[{ input_ids := [97, 98], attention_mask := [1, 1],
                             labels := none }]],
              cacheAfter := some [{ input_ids := [97, 98], attention_mask := [1, 1],
                                    labels := none }] }) ∧
    wM.get_data_loader [str "ab"] none none none none
        (some (some [{ input_ids := [97, 98], attention_mask := [1, 1], labels := none }]))
        false false false
      = .ok { batches := [[{ input_ids := [97, 98], attention_mask := [1, 1],
                             labels := none }]],
              cacheAfter := some [{ input_ids := [97, 98], attention_mask := [1, 1],
                                    labels := none }] } :=
  ⟨by decide,
   (C8_cache_roundtrip wM [str "ab"] none none none none false false false
      { batches := [[{ input_ids := [97, 98], attention_mask := [1, 1], labels := none }]],
        cacheAfter := some [{ input_ids := [97, 98], attention_mask := [1, 1],
                              labels := none }] }
      (by decide)).2⟩

end T5QG
